import Mathlib

/-!
Verification of the loyalty-analysis service (`src/main.py`) against its
natural-language specification.

The development shallowly embeds the program:

* Python string primitives used by the source (`str.find`, slicing with
  negative indices, `str.strip`) are modelled on `List Char` / `String`,
  with CPython's documented semantics (`find` returns `-1` when the
  needle is absent; slice indices are clamped after adding the length to
  negative indices).
* `json.loads` is modelled by an executable recursive-descent parser
  (`json_loads`) following the grammar accepted by CPython's `json`
  module with its default `strict=True` settings (including the
  non-standard `NaN` / `Infinity` / `-Infinity` literals and the
  "extra data" check after the top-level value).  Numbers are kept as
  their lexemes; `\uXXXX` escapes that denote lone surrogates and
  surrogate pairs are mapped through `Char.ofNat`, which is irrelevant
  to every statement below.  Objects are represented as association
  lists in parse order.
* The outbound OpenAI chat-completion call is the one impure boundary of
  the program; it is modelled as an explicit function argument
  `llm : String → String → Except String String` taking the system and
  user prompt and returning either the completion text
  (`response.choices[0].message.content`) or the textual rendering of a
  provider exception.
* `fastapi.HTTPException` is modelled as a status code plus detail
  string; Starlette renders such an exception as `"{status}: {detail}"`,
  modelled by `str_of_HTTPException`.
-/

/-- The characters removed by Python `str.strip()` (ASCII whitespace:
space, tab, newline, carriage return, vertical tab, form feed.  Python
also strips some further Unicode whitespace code points; none of the
statements below involves them). -/
def pyWs (c : Char) : Bool :=
  c = ' ' || c = '\t' || c = '\n' || c = '\r' || c = Char.ofNat 11 || c = Char.ofNat 12

/-- Python `str.strip()` on a list of characters. -/
def pyStripList (l : List Char) : List Char :=
  ((l.dropWhile pyWs).reverse.dropWhile pyWs).reverse

/-- Python `str.strip()`. -/
def pyStrip (s : String) : String :=
  ⟨pyStripList s.data⟩

/-- CPython slice-index normalisation for a sequence of length `len`:
a negative index has `len` added to it, then the result is clamped to
`[0, len]`. -/
def clampIdx (len : Nat) (i : Int) : Nat :=
  let j : Int := if i < 0 then i + len else i
  if j < 0 then 0 else min j.toNat len

/-- Python slicing `l[a:b]` (step 1) on a list of characters. -/
def pySliceList (l : List Char) (a b : Int) : List Char :=
  (l.take (clampIdx l.length b)).drop (clampIdx l.length a)

/-- Python slicing `s[a:b]` (step 1). -/
def pySlice (s : String) (a b : Int) : String :=
  ⟨pySliceList s.data a b⟩

/-- Index of the first occurrence of `sub` in `hay` (`none` if absent). -/
def firstOcc (sub : List Char) : List Char → Option Nat
  | [] => if sub.isPrefixOf [] then some 0 else none
  | c :: t =>
    if sub.isPrefixOf (c :: t) then some 0
    else (firstOcc sub t).map (fun n => n + 1)

/-- Python `hay.find(sub)`: index of the first occurrence, `-1` if absent. -/
def pyFind (hay sub : String) : Int :=
  match firstOcc sub.data hay.data with
  | some i => (i : Int)
  | none => -1

/-- Python `sub in hay` (substring containment). -/
def strContains (hay sub : String) : Bool :=
  (firstOcc sub.data hay.data).isSome

/-- JSON values as produced by the model of `json.loads`.  Numbers keep
their source lexeme; objects are association lists in parse order. -/
inductive Json where
  | null : Json
  | bool (b : Bool) : Json
  | num (lexeme : String) : Json
  | str (s : String) : Json
  | arr (items : List Json) : Json
  | obj (pairs : List (String × Json)) : Json

/-- JSON insignificant whitespace (the only characters `json.loads`
skips between tokens). -/
def jsonWsChar (c : Char) : Bool :=
  c = ' ' || c = '\t' || c = '\n' || c = '\r'

/-- Skip JSON insignificant whitespace. -/
def skipWs (l : List Char) : List Char :=
  l.dropWhile jsonWsChar

def isJsonDigit (c : Char) : Bool :=
  '0' ≤ c && c ≤ '9'

def quoteChar : Char := Char.ofNat 34

def backslashChar : Char := Char.ofNat 92

def lbraceChar : Char := Char.ofNat 123

def rbraceChar : Char := Char.ofNat 125

def hexVal (c : Char) : Option Nat :=
  let n := c.toNat
  if 48 ≤ n && n ≤ 57 then some (n - 48)
  else if 97 ≤ n && n ≤ 102 then some (n - 87)
  else if 65 ≤ n && n ≤ 70 then some (n - 55)
  else none

/-- Single-character JSON string escapes. -/
def escMap (c : Char) : Option Char :=
  if c = quoteChar then some quoteChar
  else if c = backslashChar then some backslashChar
  else if c = '/' then some '/'
  else if c = 'b' then some (Char.ofNat 8)
  else if c = 'f' then some (Char.ofNat 12)
  else if c = 'n' then some '\n'
  else if c = 'r' then some '\r'
  else if c = 't' then some '\t'
  else none

/-- Body of a JSON string (after the opening quote), accumulating
decoded characters in reverse.  `strict=True`: raw control characters
below 0x20 are rejected. -/
def parseStringBody : List Char → List Char → Option (String × List Char)
  | [], _ => none
  | c :: r, acc =>
    if c = quoteChar then some (⟨acc.reverse⟩, r)
    else if c = backslashChar then
      match r with
      | 'u' :: h1 :: h2 :: h3 :: h4 :: r2 =>
        match hexVal h1, hexVal h2, hexVal h3, hexVal h4 with
        | some a, some b, some c2, some d =>
          parseStringBody r2 (Char.ofNat (((a * 16 + b) * 16 + c2) * 16 + d) :: acc)
        | _, _, _, _ => none
      | e :: r2 =>
        match escMap e with
        | some d => parseStringBody r2 (d :: acc)
        | none => none
      | [] => none
    else if c.toNat < 32 then none
    else parseStringBody r (c :: acc)

def spanDigits (l : List Char) : List Char × List Char :=
  (l.takeWhile isJsonDigit, l.dropWhile isJsonDigit)

/-- Integer part of a JSON number: `0`, or a nonzero digit followed by
digits (leading zeros are not allowed). -/
def parseIntPart : List Char → Option (List Char × List Char)
  | [] => none
  | c :: r =>
    if c = '0' then some ([c], r)
    else if isJsonDigit c then
      some (c :: (r.takeWhile isJsonDigit), r.dropWhile isJsonDigit)
    else none

/-- Optional fraction part `.digits` (consumed only when complete,
mirroring the regular expression used by CPython's json scanner). -/
def parseFrac (l : List Char) : List Char × List Char :=
  match l with
  | c :: r =>
    if c = '.' then
      match spanDigits r with
      | ([], _) => ([], l)
      | (ds, r2) => (c :: ds, r2)
    else ([], l)
  | [] => ([], l)

/-- Optional exponent part `[eE][+-]?digits`. -/
def parseExp (l : List Char) : List Char × List Char :=
  match l with
  | c :: r =>
    if c = 'e' || c = 'E' then
      let (sgn, r2) :=
        match r with
        | s :: rr => if s = '+' || s = '-' then ([s], rr) else (([] : List Char), r)
        | [] => (([] : List Char), r)
      match spanDigits r2 with
      | ([], _) => (([] : List Char), l)
      | (ds, r3) => (c :: (sgn ++ ds), r3)
    else (([] : List Char), l)
  | [] => (([] : List Char), l)

/-- A JSON number starting at the head of the input. -/
def parseNumber (cs : List Char) : Option (Json × List Char) :=
  let (sgn, cs1) :=
    match cs with
    | c :: r => if c = '-' then ([c], r) else (([] : List Char), cs)
    | [] => (([] : List Char), cs)
  match parseIntPart cs1 with
  | none => none
  | some (ip, r1) =>
    let (fp, r2) := parseFrac r1
    let (ep, r3) := parseExp r2
    some (.num ⟨sgn ++ ip ++ fp ++ ep⟩, r3)

/-- Members of a JSON object, positioned at the first key (whitespace
already skipped, at least one member present). -/
def parseMembers : Nat → (List Char → Option (Json × List Char)) → List Char →
    Option (List (String × Json) × List Char)
  | 0, _, _ => none
  | fuel + 1, pv, cs =>
    match cs with
    | c :: r =>
      if c = quoteChar then
        match parseStringBody r [] with
        | none => none
        | some (key, r1) =>
          match skipWs r1 with
          | ':' :: r2 =>
            match pv (skipWs r2) with
            | none => none
            | some (v, r3) =>
              match skipWs r3 with
              | d :: r4 =>
                if d = rbraceChar then some ([(key, v)], r4)
                else if d = ',' then
                  match parseMembers fuel pv (skipWs r4) with
                  | some (ms, r5) => some ((key, v) :: ms, r5)
                  | none => none
                else none
              | [] => none
          | _ => none
      else none
    | [] => none

/-- Elements of a JSON array, positioned at the first element
(whitespace already skipped, at least one element present). -/
def parseElements : Nat → (List Char → Option (Json × List Char)) → List Char →
    Option (List Json × List Char)
  | 0, _, _ => none
  | fuel + 1, pv, cs =>
    match pv (skipWs cs) with
    | none => none
    | some (v, r) =>
      match skipWs r with
      | ']' :: r2 => some ([v], r2)
      | ',' :: r2 =>
        match parseElements fuel pv r2 with
        | some (vs, r3) => some (v :: vs, r3)
        | none => none
      | _ => none

/-- A JSON value starting at the head of the input (no leading
whitespace).  Fuel bounds the recursion depth; `json_loads` supplies
more than enough. -/
def parseValue : Nat → List Char → Option (Json × List Char)
  | 0, _ => none
  | fuel + 1, cs =>
    match cs with
    | [] => none
    | c :: rest =>
      if c = lbraceChar then
        match skipWs rest with
        | d :: r =>
          if d = rbraceChar then some (.obj [], r)
          else
            match parseMembers fuel (parseValue fuel) (d :: r) with
            | some (ms, r2) => some (.obj ms, r2)
            | none => none
        | [] => none
      else if c = '[' then
        match skipWs rest with
        | ']' :: r => some (.arr [], r)
        | cs1 =>
          match parseElements fuel (parseValue fuel) cs1 with
          | some (vs, r2) => some (.arr vs, r2)
          | none => none
      else if c = quoteChar then
        match parseStringBody rest [] with
        | some (s, r) => some (.str s, r)
        | none => none
      else if c = 't' then
        if ['r', 'u', 'e'].isPrefixOf rest then some (.bool true, rest.drop 3) else none
      else if c = 'f' then
        if ['a', 'l', 's', 'e'].isPrefixOf rest then some (.bool false, rest.drop 4) else none
      else if c = 'n' then
        if ['u', 'l', 'l'].isPrefixOf rest then some (.null, rest.drop 3) else none
      else if c = 'N' then
        if ['a', 'N'].isPrefixOf rest then some (.num "NaN", rest.drop 2) else none
      else if c = 'I' then
        if ['n', 'f', 'i', 'n', 'i', 't', 'y'].isPrefixOf rest then
          some (.num "Infinity", rest.drop 7)
        else none
      else if c = '-' then
        if ['I', 'n', 'f', 'i', 'n', 'i', 't', 'y'].isPrefixOf rest then
          some (.num "-Infinity", rest.drop 8)
        else parseNumber cs
      else if isJsonDigit c then parseNumber cs
      else none

/-- Model of Python `json.loads`: skip leading whitespace, parse one
value, require only whitespace afterwards ("Extra data" otherwise). -/
def json_loads (s : String) : Option Json :=
  match parseValue (2 * s.data.length + 2) (skipWs s.data) with
  | some (v, r) =>
    match skipWs r with
    | [] => some v
    | _ => none
  | none => none

/-- Model of `fastapi.HTTPException(status_code=..., detail=...)`. -/
structure HTTPException where
  status_code : Nat
  detail : String

/-- Starlette renders an `HTTPException` via `str(e)` as
`"{status_code}: {detail}"`. -/
def str_of_HTTPException (e : HTTPException) : String :=
  toString e.status_code ++ ": " ++ e.detail

/-- The apostrophe character (kept out of string literals). -/
def apos : String := ⟨[Char.ofNat 39]⟩

/-- `construct_system_prompt` from `src/main.py` (lines 62-125): a fixed
block of text with no per-request substitution. -/
def construct_system_prompt : String :=
  "\nYou are an expert in loyalty program financial modeling and ROI analysis. Create detailed \nfinancial projections that include implementation costs, revenue uplift, and ROI metrics. Consider:\n\n1. Cost Structure\n   - Technology implementation\n   - Program administration\n   - Rewards and redemption costs\n   - Marketing and communication\n\n2. Revenue Impact\n   - Increased purchase frequency\n   - Higher average transaction value\n   - Improved retention rates\n   - New customer acquisition\n\n3. ROI Analysis\n   - Payback period\n   - Net present value\n   - Internal rate of return\n   - Benefit-cost ratio\n\nProvide your response in two parts:\n1. A detailed explanation in natural language\n2. A structured JSON object with this exact schema:\n\x7b\n    \"financial_model\": \x7b\n        \"summary\": \"Brief overview of financial projections\",\n        \"total_investment\": 1000000.00,\n        \"costs\": [\n            \x7b\n                \"category\": \"Technology\",\n                \"year_1\": 500000.00,\n                \"year_2\": 100000.00,\n                \"year_3\": 100000.00,\n                \"description\": \"Description of costs\",\n                \"assumptions\": [\"assumption1\", \"assumption2\"]\n            \x7d\n        ],\n        \"revenue_uplift\": [\n            \x7b\n                \"category\": \"Increased Frequency\",\n                \"year_1\": 200000.00,\n                \"year_2\": 400000.00,\n                \"year_3\": 600000.00,\n                \"description\": \"Description of impact\",\n                \"assumptions\": [\"assumption1\", \"assumption2\"]\n            \x7d\n        ],\n        \"roi_metrics\": \x7b\n            \"payback_period\": \"18 months\",\n            \"net_present_value\": 1500000.00,\n            \"irr\": 25.5,\n            \"benefit_cost_ratio\": 2.5,\n            \"key_assumptions\": [\"assumption1\", \"assumption2\"]\n        \x7d,\n        \"sensitivity_analysis\": [\"factor1\", \"factor2\"],\n        \"risk_factors\": [\"risk1\", \"risk2\"]\n    \x7d\n\x7d\n\nSeparate the two parts with [JSON_START] and [JSON_END] markers.\n"

/-- Python truthiness of an `Optional[str]`: `None` and `""` are falsy. -/
def pyTruthyStr : Option String → Bool
  | none => false
  | some s => !s.isEmpty

/-- `construct_user_prompt` from `src/main.py` (lines 127-144).  The
refinement block is a triple-quoted f-string; its rendered text is the
concatenation written out below (a leading newline from the opening
quotes, the two `\n` escapes, the embedded previous output, a newline,
a `\n` escape, the embedded feedback, and a trailing newline). -/
def construct_user_prompt (company_name : String)
    (program_design existing_output feedback : Option String) : String :=
  let prompt :=
    "Please create a financial model for " ++ company_name ++ apos ++ "s loyalty program."
  let prompt :=
    if pyTruthyStr program_design then
      prompt ++ "\n\nConsider this program design: " ++ program_design.getD ""
    else prompt
  let prompt :=
    if pyTruthyStr existing_output && pyTruthyStr feedback then
      prompt ++ "\n\n\nPrevious financial model: " ++ existing_output.getD "" ++
        "\n\nPlease refine the model based on this feedback: " ++ feedback.getD "" ++ "\n"
    else prompt
  prompt

/-- `extract_json_from_text` from `src/main.py` (lines 146-156).
`text.find` yields `-1` when a marker is absent, and the slice indices
are then interpreted by Python slicing semantics (`pySlice`).  On a
`json.loads` failure the function raises
`HTTPException(500, "Failed to parse structured data from response: "
+ str(e))`; the Python detail embeds `str(e)`, the decoder's diagnostic
message, which we model by the offending string — every statement below
relies only on the fixed prefix of the detail. -/
def extract_json_from_text (text : String) : Except HTTPException Json :=
  let start_marker := "[JSON_START]"
  let end_marker := "[JSON_END]"
  let json_str :=
    pyStrip (pySlice text (pyFind text start_marker + 12) (pyFind text end_marker))
  match json_loads json_str with
  | some v => .ok v
  | none =>
    .error ⟨500, "Failed to parse structured data from response: " ++ json_str⟩

/-- The analysis part computed in `generate_financial_model`
(`src/main.py` line 182):
`full_response[:full_response.find("[JSON_START]")].strip()`. -/
def analysis_of (full_response : String) : String :=
  pyStrip (pySlice full_response 0 (pyFind full_response "[JSON_START]"))

/-- `generate_financial_model` from `src/main.py` (lines 158-187).  The
outbound chat-completion call is modelled by the function argument
`llm`, applied to the system and user prompt; `.error e` stands for a
provider exception rendered by `str(e)`.  An `HTTPException` raised by
`extract_json_from_text` is caught by the surrounding
`except Exception` and re-raised as
`HTTPException(500, str(e))`. -/
def generate_financial_model (llm : String → String → Except String String)
    (company_name : String)
    (program_design existing_output feedback : Option String) :
    Except HTTPException (String × Json) :=
  match llm construct_system_prompt
      (construct_user_prompt company_name program_design existing_output feedback) with
  | .error e => .error ⟨500, e⟩
  | .ok full_response =>
    match extract_json_from_text full_response with
    | .error ex => .error ⟨500, str_of_HTTPException ex⟩
    | .ok structured_data => .ok (analysis_of full_response, structured_data)

/-- `PreviousData` (`src/main.py` lines 45-46). -/
structure PreviousData where
  loyalty_program_design : Option String

/-- `CurrentPromptData` (`src/main.py` lines 48-50): both fields are
required strings. -/
structure CurrentPromptData where
  existing_generated_output : String
  user_feedback : String

/-- `FinancialModelRequest` (`src/main.py` lines 52-56).  The open-ended
`Optional[Dict]` is modelled as an optional association list of JSON
values; it is never read by the handler. -/
structure FinancialModelRequest where
  company_name : String
  previous_data : Option PreviousData
  current_prompt_data : Option CurrentPromptData
  other_input_data : Option (List (String × Json))

/-- `FinancialModelResponse` (`src/main.py` lines 58-60). -/
structure FinancialModelResponse where
  generated_output : String
  structured_data : Json

/-- The construction `FinancialModelResponse(generated_output=...,
structured_data=...)` on `src/main.py` lines 210-213, including
pydantic's validation of `structured_data: Dict`: a parsed top-level
JSON value that is not an object makes the response-model construction
raise, which FastAPI surfaces as a plain `500 Internal Server Error`. -/
def validate_response_model (generated_text : String) (structured_data : Json) :
    Except HTTPException FinancialModelResponse :=
  match structured_data with
  | .obj ms => .ok ⟨generated_text, .obj ms⟩
  | _ => .error ⟨500, "Internal Server Error"⟩

/-- The `/generate` handler `generate_model` (`src/main.py` lines
189-213). -/
def generate_model (llm : String → String → Except String String)
    (request : FinancialModelRequest) : Except HTTPException FinancialModelResponse :=
  let program_design :=
    match request.previous_data with
    | none => none
    | some pd => pd.loyalty_program_design
  let existing_output :=
    match request.current_prompt_data with
    | none => none
    | some cpd => some cpd.existing_generated_output
  let feedback :=
    match request.current_prompt_data with
    | none => none
    | some cpd => some cpd.user_feedback
  match generate_financial_model llm request.company_name program_design
      existing_output feedback with
  | .error e => .error e
  | .ok (generated_text, structured_data) =>
    validate_response_model generated_text structured_data

/-- The user prompt a given request leads to (the field extraction of
`generate_model`, lines 192-200, fed into `construct_user_prompt`). -/
def request_user_prompt (request : FinancialModelRequest) : String :=
  construct_user_prompt request.company_name
    (match request.previous_data with
     | none => none
     | some pd => pd.loyalty_program_design)
    (match request.current_prompt_data with
     | none => none
     | some cpd => some cpd.existing_generated_output)
    (match request.current_prompt_data with
     | none => none
     | some cpd => some cpd.user_feedback)

/-- An inbound request body before validation: `company_name` may be
absent. -/
structure RequestBody where
  company_name : Option String
  previous_data : Option PreviousData
  current_prompt_data : Option CurrentPromptData
  other_input_data : Option (List (String × Json))

/-- Modelled FastAPI/pydantic request validation for
`FinancialModelRequest` (declared in `src/main.py` lines 52-56):
`company_name: str` is a required field, so a body without it is
rejected with a 422 validation error before the handler runs.  A
present string — including the empty string — passes validation, since
the declaration carries no minimum-length constraint. -/
def fastapi_validate (body : RequestBody) : Except HTTPException FinancialModelRequest :=
  match body.company_name with
  | none => .error ⟨422, "Field required: company_name"⟩
  | some c =>
    .ok ⟨c, body.previous_data, body.current_prompt_data, body.other_input_data⟩

/-- One inbound `POST /generate` request, end to end.  The first
component counts completion-provider calls: the handler body
unconditionally reaches `client.chat.completions.create`, so a
validated request performs exactly one call and a rejected body
performs none. -/
def app_post_generate (llm : String → String → Except String String)
    (body : RequestBody) : Nat × Except HTTPException FinancialModelResponse :=
  match fastapi_validate body with
  | .error e => (0, .error e)
  | .ok req => (1, generate_model llm req)

theorem prefix_append_cases {α : Type} {l a b : List α} (h : l <+: a ++ b) :
    l <+: a ∨ (a <+: l ∧ l.drop a.length <+: b) := by
  obtain ⟨t, ht⟩ := h
  rcases List.append_eq_append_iff.mp ht with ⟨a', ha, _⟩ | ⟨c', hl, hb⟩
  · exact Or.inl ⟨a', ha.symm⟩
  · refine Or.inr ⟨⟨c', hl.symm⟩, ?_⟩
    subst hl
    rw [List.drop_left]
    exact ⟨t, hb.symm⟩

theorem firstOcc_none_iff (sub hay : List Char) :
    firstOcc sub hay = none ↔ ∀ i, ¬ sub <+: hay.drop i := by
  induction hay with
  | nil =>
    by_cases h : sub.isPrefixOf ([] : List Char)
    · have hsub : sub = [] := List.prefix_nil.mp (List.isPrefixOf_iff_prefix.mp h)
      subst hsub
      simp [firstOcc]
    · simp only [firstOcc, h, if_false, Bool.false_eq_true, if_neg, not_false_iff]
      constructor
      · intro _ i
        rw [List.drop_nil]
        exact fun hp => h (List.isPrefixOf_iff_prefix.mpr hp)
      · intro _
        trivial
  | cons c t ih =>
    by_cases h : sub.isPrefixOf (c :: t)
    · simp only [firstOcc, h, if_true]
      constructor
      · intro hc
        cases hc
      · intro hall
        exact absurd (by simpa using List.isPrefixOf_iff_prefix.mp h) (hall 0)
    · simp only [firstOcc, h, Bool.false_eq_true, if_neg, not_false_iff,
        Option.map_eq_none']
      rw [ih]
      constructor
      · intro hall i
        cases i with
        | zero =>
          rw [List.drop_zero]
          exact fun hp => h (List.isPrefixOf_iff_prefix.mpr hp)
        | succ n =>
          simpa using hall n
      · intro hall i
        simpa using hall (i + 1)

theorem firstOcc_some_iff (sub hay : List Char) (i : Nat) :
    firstOcc sub hay = some i ↔
      sub <+: hay.drop i ∧ ∀ j, j < i → ¬ sub <+: hay.drop j := by
  induction hay generalizing i with
  | nil =>
    by_cases h : sub.isPrefixOf ([] : List Char)
    · have hsub : sub = [] := List.prefix_nil.mp (List.isPrefixOf_iff_prefix.mp h)
      subst hsub
      simp only [firstOcc, List.isPrefixOf, if_true, List.drop_nil]
      constructor
      · intro hc
        injection hc with hc
        subst hc
        exact ⟨List.nil_prefix, by omega⟩
      · rintro ⟨-, hmin⟩
        cases i with
        | zero => rfl
        | succ n => exact absurd List.nil_prefix (hmin 0 (Nat.succ_pos n))
    · simp only [firstOcc, h, Bool.false_eq_true, if_neg, not_false_iff]
      constructor
      · intro hc
        cases hc
      · rintro ⟨hpre, -⟩
        rw [List.drop_nil] at hpre
        exact absurd (List.isPrefixOf_iff_prefix.mpr hpre) h
  | cons c t ih =>
    by_cases h : sub.isPrefixOf (c :: t)
    · constructor
      · intro hc
        simp only [firstOcc, h, if_true] at hc
        injection hc with hc
        subst hc
        exact ⟨by simpa using List.isPrefixOf_iff_prefix.mp h, by omega⟩
      · rintro ⟨hpre, hmin⟩
        cases i with
        | zero => simp [firstOcc, h]
        | succ n =>
          exact absurd (by simpa using List.isPrefixOf_iff_prefix.mp h)
            (hmin 0 (Nat.succ_pos n))
    · constructor
      · intro hc
        simp only [firstOcc, h, Bool.false_eq_true, if_neg, not_false_iff,
          Option.map_eq_some'] at hc
        obtain ⟨k, hk, hki⟩ := hc
        obtain ⟨hocc, hmin⟩ := (ih k).mp hk
        subst hki
        refine ⟨by simpa using hocc, ?_⟩
        intro j hj
        cases j with
        | zero =>
          rw [List.drop_zero]
          exact fun hp => h (List.isPrefixOf_iff_prefix.mpr hp)
        | succ m =>
          simpa using hmin m (by omega)
      · rintro ⟨hpre, hmin⟩
        cases i with
        | zero =>
          rw [List.drop_zero] at hpre
          exact absurd (List.isPrefixOf_iff_prefix.mpr hpre) h
        | succ n =>
          simp only [firstOcc, h, Bool.false_eq_true, if_neg, not_false_iff,
            Option.map_eq_some']
          refine ⟨n, (ih n).mpr ⟨by simpa using hpre, ?_⟩, rfl⟩
          intro j hj
          simpa using hmin (j + 1) (by omega)

theorem firstOcc_append (sub a b : List Char)
    (h1 : firstOcc sub a = none)
    (hstrad : ∀ k, 0 < k → k < sub.length →
      ¬ (sub.take k <:+ a ∧ sub.drop k <+: b)) :
    firstOcc sub (a ++ b) = (firstOcc sub b).map (fun n => n + a.length) := by
  have hleft : ∀ j, j < a.length → ¬ sub <+: (a ++ b).drop j := by
    intro j hj hpre
    rw [List.drop_append_eq_append_drop, Nat.sub_eq_zero_of_le (le_of_lt hj),
      List.drop_zero] at hpre
    rcases prefix_append_cases hpre with hca | ⟨hal, hrest⟩
    · exact (firstOcc_none_iff sub a).mp h1 j hca
    · have hlen : (a.drop j).length = a.length - j := List.length_drop j a
      have hkle : a.length - j ≤ sub.length := by
        have := hal.length_le
        omega
    
      rcases eq_or_lt_of_le hkle with heq | hlt
      · have hda : a.drop j = sub := hal.eq_of_length (by rw [hlen, heq])
        exact (firstOcc_none_iff sub a).mp h1 j (by rw [hda])
      · apply hstrad (a.length - j) (by omega) hlt
        constructor
        · have htake : a.drop j = sub.take (a.drop j).length :=
            List.prefix_iff_eq_take.mp hal
          rw [hlen] at htake
          rw [← htake]
          exact List.drop_suffix j a
        · rw [hlen] at hrest
          exact hrest
  cases hb : firstOcc sub b with
  | none =>
    simp only [Option.map_none']
    rw [firstOcc_none_iff]
    intro i
    by_cases hi : i < a.length
    · exact hleft i hi
    · push_neg at hi
      rw [List.drop_append_eq_append_drop, List.drop_eq_nil_of_le hi,
        List.nil_append]
      exact (firstOcc_none_iff sub b).mp hb _
  | some k =>
    simp only [Option.map_some']
    obtain ⟨hocc, hmin⟩ := (firstOcc_some_iff sub b k).mp hb
    rw [firstOcc_some_iff]
    refine ⟨?_, ?_⟩
    · have hd : (a ++ b).drop (k + a.length) = b.drop k := by
        rw [Nat.add_comm, List.drop_append]
      rw [hd]
      exact hocc
    · intro j hj
      by_cases hja : j < a.length
      · exact hleft j hja
      · push_neg at hja
        rw [List.drop_append_eq_append_drop, List.drop_eq_nil_of_le hja,
          List.nil_append]
        exact hmin (j - a.length) (by omega)

theorem firstOcc_append_none (sub a b : List Char)
    (h1 : firstOcc sub a = none)
    (hstrad : ∀ k, 0 < k → k < sub.length →
      ¬ (sub.take k <:+ a ∧ sub.drop k <+: b))
    (h3 : firstOcc sub b = none) :
    firstOcc sub (a ++ b) = none := by
  rw [firstOcc_append sub a b h1 hstrad, h3]
  rfl

theorem no_prefix_of_append {l r0 rest : List Char} (h : l <+: r0 ++ rest)
    (h1 : l.isPrefixOf r0 = false) (h2 : r0.isPrefixOf l = false) : False := by
  rcases prefix_append_cases h with hc | ⟨hc, -⟩
  · rw [List.isPrefixOf_iff_prefix.mpr hc] at h1
    cases h1
  · rw [List.isPrefixOf_iff_prefix.mpr hc] at h2
    cases h2

theorem strContains_false_iff (hay sub : String) :
    strContains hay sub = false ↔ firstOcc sub.data hay.data = none := by
  unfold strContains
  cases firstOcc sub.data hay.data <;> simp

theorem strContains_true_iff (hay sub : String) :
    strContains hay sub = true ↔ sub.data <:+: hay.data := by
  unfold strContains
  constructor
  · intro h
    obtain ⟨i, hi⟩ := Option.isSome_iff_exists.mp h
    obtain ⟨hocc, -⟩ := (firstOcc_some_iff _ _ _).mp hi
    obtain ⟨t, ht⟩ := hocc
    exact ⟨hay.data.take i, t, by rw [List.append_assoc, ht, List.take_append_drop]⟩
  · rintro ⟨s, t, hst⟩
    cases hf : firstOcc sub.data hay.data with
    | some k => rfl
    | none =>
      exfalso
      have hd : hay.data.drop s.length = sub.data ++ t := by
        rw [← hst, List.append_assoc, List.drop_left]
      refine (firstOcc_none_iff _ _).mp hf s.length ?_
      rw [hd]
      exact List.prefix_append _ _

/-- `construct_user_prompt` with its `let`-bindings inlined (definitional). -/
theorem construct_user_prompt_eq (c : String) (d e f : Option String) :
    construct_user_prompt c d e f =
      (if pyTruthyStr e && pyTruthyStr f then
        (if pyTruthyStr d then
          "Please create a financial model for " ++ c ++ apos ++ "s loyalty program." ++
            "\n\nConsider this program design: " ++ d.getD ""
         else
          "Please create a financial model for " ++ c ++ apos ++ "s loyalty program.") ++
          "\n\n\nPrevious financial model: " ++ e.getD "" ++
          "\n\nPlease refine the model based on this feedback: " ++ f.getD "" ++ "\n"
       else
        (if pyTruthyStr d then
          "Please create a financial model for " ++ c ++ apos ++ "s loyalty program." ++
            "\n\nConsider this program design: " ++ d.getD ""
         else
          "Please create a financial model for " ++ c ++ apos ++ "s loyalty program.")) :=
  rfl

theorem strContains_empty (hay : String) : strContains hay "" = true := by
  apply (strContains_true_iff _ _).mpr
  exact ⟨[], hay.data, by simp⟩

theorem strContains_self (s : String) : strContains s s = true :=
  (strContains_true_iff _ _).mpr (List.infix_refl _)

theorem strContains_append_left (x y m : String) (h : strContains x m = true) :
    strContains (x ++ y) m = true := by
  apply (strContains_true_iff _ _).mpr
  obtain ⟨u, v, huv⟩ := (strContains_true_iff _ _).mp h
  exact ⟨u, v ++ y.data, by rw [String.data_append, ← huv]; simp [List.append_assoc]⟩

theorem strContains_append_right (x y m : String) (h : strContains y m = true) :
    strContains (x ++ y) m = true := by
  apply (strContains_true_iff _ _).mpr
  obtain ⟨u, v, huv⟩ := (strContains_true_iff _ _).mp h
  exact ⟨x.data ++ u, v, by rw [String.data_append, ← huv]; simp [List.append_assoc]⟩

theorem strContains_right (x y : String) : strContains (x ++ y) y = true :=
  strContains_append_right x y y (strContains_self y)

theorem contains_program_design (c s : String) (e f : Option String) :
    strContains (construct_user_prompt c (some s) e f) s = true := by
  by_cases hs : s.isEmpty = true
  · rw [(String.isEmpty_iff s).mp hs]
    exact strContains_empty _
  · have hd : pyTruthyStr (some s) = true := by
      cases h : s.isEmpty with
      | true => exact absurd h hs
      | false => simp [pyTruthyStr, h]
    rw [construct_user_prompt_eq]
    cases hef : pyTruthyStr e && pyTruthyStr f with
    | true =>
      simp only [hd, Option.getD_some, if_true]
      apply strContains_append_left
      apply strContains_append_left
      apply strContains_append_left
      apply strContains_append_left
      apply strContains_append_left
      exact strContains_right _ s
    | false =>
      simp only [hd, Option.getD_some, if_true, Bool.false_eq_true, if_false]
      exact strContains_right _ s

/-- C5: whenever `previous_data.loyalty_program_design` is set to some
string, the user instruction built by the handler contains that design
text (for the empty string the containment is trivial; for a non-empty
string the builder appends the design clause embedding it verbatim). -/
theorem C5_design_text_in_user_prompt (c s : String)
    (cpd : Option CurrentPromptData) (o : Option (List (String × Json))) :
    strContains (request_user_prompt ⟨c, some ⟨some s⟩, cpd, o⟩) s = true := by
  cases cpd with
  | none => exact contains_program_design c s none none
  | some x =>
    exact contains_program_design c s (some x.existing_generated_output)
      (some x.user_feedback)

/-- C10: two requests that differ only in `other_input_data` produce the
same user instruction and the same endpoint outcome for any given
completion provider.  (The system instruction `construct_system_prompt`
takes no request input at all, so it is identical for the two requests
by construction.) -/
theorem C10_other_input_data_no_influence
    (llm : String → String → Except String String) (c : String)
    (pd : Option PreviousData) (cpd : Option CurrentPromptData)
    (o₁ o₂ : Option (List (String × Json))) :
    request_user_prompt ⟨c, pd, cpd, o₁⟩ = request_user_prompt ⟨c, pd, cpd, o₂⟩ ∧
      generate_model llm ⟨c, pd, cpd, o₁⟩ = generate_model llm ⟨c, pd, cpd, o₂⟩ :=
  ⟨rfl, rfl⟩

/-- C2 (code bug): the completion text below does not contain
`[JSON_START]`, yet `extract_json_from_text` succeeds and returns
structured data: `find` returns `-1`, so the slice starts at index
`-1 + 12 = 11` and happens to select a valid JSON object.  The spec
mandates a parse error whenever the start sentinel is absent. -/
theorem C2_no_start_sentinel_still_parses :
    strContains "Hello world\x7b\"a\": 1\x7d[JSON_END]" "[JSON_START]" = false ∧
      extract_json_from_text "Hello world\x7b\"a\": 1\x7d[JSON_END]" =
        .ok (Json.obj [("a", Json.num "1")]) :=
  ⟨rfl, rfl⟩

/-- C3 (code bug): the completion text below contains `[JSON_START]` but
no `[JSON_END]`, yet `extract_json_from_text` succeeds: `find` returns
`-1` for the end marker, so the slice is `text[12:-1]`, which drops only
the final newline and parses.  The spec mandates a parse error whenever
the end sentinel is absent. -/
theorem C3_no_end_sentinel_still_parses :
    strContains "[JSON_START]\x7b\"a\": 1\x7d\n" "[JSON_START]" = true ∧
      strContains "[JSON_START]\x7b\"a\": 1\x7d\n" "[JSON_END]" = false ∧
      extract_json_from_text "[JSON_START]\x7b\"a\": 1\x7d\n" =
        .ok (Json.obj [("a", Json.num "1")]) :=
  ⟨rfl, rfl, rfl⟩

/-- C8 counterexample: a request whose `company_name` is present but
empty passes validation — the provider is called (count 1) and the
outcome is the provider result, not a 4xx validation error. -/
theorem C8_empty_company_name_not_rejected :
    app_post_generate (fun _ _ => Except.error "provider was called")
        ⟨some "", none, none, none⟩ =
      (1, Except.error ⟨500, "provider was called"⟩) :=
  rfl

/-- C8 (amended): a request body with no `company_name` at all is
rejected by validation with a 422 client error, and the completion
provider is not called (call count 0). -/
theorem C8_missing_company_name_rejected
    (llm : String → String → Except String String)
    (pd : Option PreviousData) (cpd : Option CurrentPromptData)
    (o : Option (List (String × Json))) :
    app_post_generate llm ⟨none, pd, cpd, o⟩ =
      (0, Except.error ⟨422, "Field required: company_name"⟩) :=
  rfl

theorem extract_json_from_text_of_loads_none (text : String)
    (h : json_loads (pyStrip (pySlice text (pyFind text "[JSON_START]" + 12)
      (pyFind text "[JSON_END]"))) = none) :
    extract_json_from_text text =
      .error ⟨500, "Failed to parse structured data from response: " ++
        pyStrip (pySlice text (pyFind text "[JSON_START]" + 12)
          (pyFind text "[JSON_END]"))⟩ := by
  simp only [extract_json_from_text, h]

theorem extract_json_from_text_of_loads_some (text : String) (v : Json)
    (h : json_loads (pyStrip (pySlice text (pyFind text "[JSON_START]" + 12)
      (pyFind text "[JSON_END]"))) = some v) :
    extract_json_from_text text = .ok v := by
  simp only [extract_json_from_text, h]

/-- C7: whenever the trimmed substring between the first occurrences of
the two sentinels fails to parse as JSON, the endpoint answers the
request with a 500 whose `detail` message references the parse failure
(it carries the fixed prefix `"Failed to parse structured data from
response"` produced by `extract_json_from_text`, wrapped by the
re-raise in `generate_financial_model`). -/
theorem C7_malformed_json_yields_500 (text : String) (req : FinancialModelRequest)
    (hS : strContains text "[JSON_START]" = true)
    (hE : strContains text "[JSON_END]" = true)
    (hbad : json_loads (pyStrip (pySlice text (pyFind text "[JSON_START]" + 12)
      (pyFind text "[JSON_END]"))) = none) :
    ∃ d, generate_model (fun _ _ => Except.ok text) req = .error ⟨500, d⟩ ∧
      strContains d "Failed to parse structured data from response" = true := by
  have hex := extract_json_from_text_of_loads_none text hbad
  refine ⟨str_of_HTTPException ⟨500, "Failed to parse structured data from response: " ++
    pyStrip (pySlice text (pyFind text "[JSON_START]" + 12) (pyFind text "[JSON_END]"))⟩,
    ?_, ?_⟩
  · simp only [generate_model, generate_financial_model, hex]
  · unfold str_of_HTTPException
    apply strContains_append_right
    rw [show ("Failed to parse structured data from response: " : String) =
      "Failed to parse structured data from response" ++ ": " from rfl,
      String.append_assoc]
    exact strContains_append_left _ _ _ (strContains_self _)

/-- Witness for C7 at the spec's example `[JSON_START]{not valid}[JSON_END]`
(braces escaped) and a minimal request. -/
theorem C7_malformed_json_yields_500_witness :
    (strContains "[JSON_START]\x7bnot valid\x7d[JSON_END]" "[JSON_START]" = true ∧
      strContains "[JSON_START]\x7bnot valid\x7d[JSON_END]" "[JSON_END]" = true ∧
      json_loads (pyStrip (pySlice "[JSON_START]\x7bnot valid\x7d[JSON_END]"
        (pyFind "[JSON_START]\x7bnot valid\x7d[JSON_END]" "[JSON_START]" + 12)
        (pyFind "[JSON_START]\x7bnot valid\x7d[JSON_END]" "[JSON_END]"))) = none) ∧
    (∃ d, generate_model (fun _ _ => Except.ok "[JSON_START]\x7bnot valid\x7d[JSON_END]")
        ⟨"Acme Corp", none, none, none⟩ = .error ⟨500, d⟩ ∧
      strContains d "Failed to parse structured data from response" = true) :=
  ⟨⟨rfl, rfl, rfl⟩,
    C7_malformed_json_yields_500 "[JSON_START]\x7bnot valid\x7d[JSON_END]"
      ⟨"Acme Corp", none, none, none⟩ rfl rfl rfl⟩

theorem generate_financial_model_ok_iff
    (llm : String → String → Except String String) (c : String)
    (pd e f : Option String) (t : String) (sd : Json) :
    generate_financial_model llm c pd e f = .ok (t, sd) ↔
      ∃ full, llm construct_system_prompt (construct_user_prompt c pd e f) = .ok full ∧
        extract_json_from_text full = .ok sd ∧ t = analysis_of full := by
  unfold generate_financial_model
  cases hllm : llm construct_system_prompt (construct_user_prompt c pd e f) with
  | error e0 => simp
  | ok full =>
    cases hex : extract_json_from_text full with
    | error ex => simp [hex]
    | ok sd' =>
      simp only [hex, Except.ok.injEq, Prod.mk.injEq, exists_eq_left']
      constructor
      · rintro ⟨h1, h2⟩
        exact ⟨h2, h1.symm⟩
      · rintro ⟨h1, h2⟩
        exact ⟨h2.symm, h1⟩

theorem validate_response_model_ok_iff (t gen : String) (sd0 sd : Json) :
    validate_response_model t sd0 = Except.ok ⟨gen, sd⟩ ↔
      t = gen ∧ sd0 = sd ∧ ∃ ms, sd = Json.obj ms := by
  cases sd0 with
  | obj ms' =>
    simp only [validate_response_model, Except.ok.injEq, FinancialModelResponse.mk.injEq]
    constructor
    · rintro ⟨h1, h2⟩
      exact ⟨h1, h2, ms', h2.symm⟩
    · rintro ⟨h1, h2, -, -⟩
      exact ⟨h1, h2⟩
  | null =>
    constructor
    · intro h
      exact Except.noConfusion h
    · rintro ⟨-, h2, ms, hms⟩
      subst h2
      cases hms
  | bool b =>
    constructor
    · intro h
      exact Except.noConfusion h
    · rintro ⟨-, h2, ms, hms⟩
      subst h2
      cases hms
  | num n =>
    constructor
    · intro h
      exact Except.noConfusion h
    · rintro ⟨-, h2, ms, hms⟩
      subst h2
      cases hms
  | str s =>
    constructor
    · intro h
      exact Except.noConfusion h
    · rintro ⟨-, h2, ms, hms⟩
      subst h2
      cases hms
  | arr xs =>
    constructor
    · intro h
      exact Except.noConfusion h
    · rintro ⟨-, h2, ms, hms⟩
      subst h2
      cases hms

theorem generate_model_core_iff
    (llm : String → String → Except String String) (c : String)
    (pd e f : Option String) (gen : String) (sd : Json) :
    (match generate_financial_model llm c pd e f with
     | Except.error e0 => (Except.error e0 : Except HTTPException FinancialModelResponse)
     | Except.ok (t, sd0) => validate_response_model t sd0) = Except.ok ⟨gen, sd⟩ ↔
      ∃ full, llm construct_system_prompt (construct_user_prompt c pd e f) = Except.ok full ∧
        extract_json_from_text full = Except.ok sd ∧ gen = analysis_of full ∧
        ∃ ms, sd = Json.obj ms := by
  cases hg : generate_financial_model llm c pd e f with
  | error e0 =>
    constructor
    · intro h
      exact Except.noConfusion h
    · rintro ⟨full, hfull, hex, hgen, ms, hms⟩
      have hok := (generate_financial_model_ok_iff llm c pd e f gen sd).mpr
        ⟨full, hfull, hex, hgen⟩
      rw [hg] at hok
      cases hok
  | ok p =>
    obtain ⟨t, sd0⟩ := p
    obtain ⟨full, hfull, hex', ht⟩ :=
      (generate_financial_model_ok_iff llm c pd e f t sd0).mp hg
    constructor
    · intro h
      obtain ⟨h1, h2, ms, hms⟩ := (validate_response_model_ok_iff t gen sd0 sd).mp h
      subst h1
      subst h2
      exact ⟨full, hfull, hex', ht, ms, hms⟩
    · rintro ⟨full2, hfull2, hex2, hgen2, ms2, hms2⟩
      have hfe : full = full2 := by
        have h12 := hfull.symm.trans hfull2
        injection h12
      subst hfe
      have hsd : sd0 = sd := by
        have h12 := hex'.symm.trans hex2
        injection h12
      subst hsd
      apply (validate_response_model_ok_iff t gen sd0 sd0).mpr
      exact ⟨ht.trans hgen2.symm, rfl, ms2, hms2⟩

/-- C9: the endpoint outcome is all-or-nothing.  A success response
exists exactly when the provider returned a completion whose embedded
JSON parses to an object; in that case the response carries both the
analysis text and the parsed structured data of that same completion.
In every other situation the whole request fails with an error and no
partial response is produced. -/
theorem C9_success_iff_both_parts
    (llm : String → String → Except String String)
    (req : FinancialModelRequest) (resp : FinancialModelResponse) :
    generate_model llm req = .ok resp ↔
      ∃ full, llm construct_system_prompt (request_user_prompt req) = .ok full ∧
        extract_json_from_text full = .ok resp.structured_data ∧
        resp.generated_output = analysis_of full ∧
        ∃ ms, resp.structured_data = Json.obj ms := by
  obtain ⟨c, pd, cpd, o⟩ := req
  obtain ⟨gen, sd⟩ := resp
  cases pd with
  | none =>
    cases cpd with
    | none => exact generate_model_core_iff llm c none none none gen sd
    | some x =>
      exact generate_model_core_iff llm c none (some x.existing_generated_output)
        (some x.user_feedback) gen sd
  | some p =>
    cases cpd with
    | none =>
      exact generate_model_core_iff llm c p.loyalty_program_design none none gen sd
    | some x =>
      exact generate_model_core_iff llm c p.loyalty_program_design
        (some x.existing_generated_output) (some x.user_feedback) gen sd

/-- The refinement block appended by `construct_user_prompt` when both
the existing output and the feedback are truthy, as one string. -/
def refinement_clause (existing_output feedback : String) : String :=
  "\n\n\nPrevious financial model: " ++ existing_output ++
    "\n\nPlease refine the model based on this feedback: " ++ feedback ++ "\n"

theorem contains_clause_suffix (P e' f' : String) :
    strContains (P ++ "\n\n\nPrevious financial model: " ++ e' ++
      "\n\nPlease refine the model based on this feedback: " ++ f' ++ "\n")
      (refinement_clause e' f') = true := by
  have hsplit : P ++ "\n\n\nPrevious financial model: " ++ e' ++
      "\n\nPlease refine the model based on this feedback: " ++ f' ++ "\n" =
      P ++ refinement_clause e' f' := by
    apply String.ext
    simp only [refinement_clause, String.data_append, List.append_assoc]
  rw [hsplit]
  exact strContains_right _ _

theorem marker_of_clause (p e' f' : String)
    (h : strContains p (refinement_clause e' f') = true) :
    strContains p "Previous financial model: " = true := by
  rw [strContains_true_iff] at h ⊢
  refine List.IsInfix.trans ?_ h
  refine ⟨"\n\n\n".data, (e' ++ "\n\nPlease refine the model based on this feedback: " ++
    f' ++ "\n").data, ?_⟩
  simp [refinement_clause, String.data_append, List.append_assoc]

theorem straddle_refute_left (M a b : List Char)
    (F : ∀ k, k < M.length → 0 < k → ((M.take k).isSuffixOf a) = false) :
    ∀ k, 0 < k → k < M.length → ¬ (M.take k <:+ a ∧ M.drop k <+: b) := by
  intro k hk1 hk2 ⟨hsuf, _⟩
  have h1 := F k hk2 hk1
  have h2 := List.isSuffixOf_iff_suffix.mpr hsuf
  rw [h1] at h2
  exact Bool.noConfusion h2

theorem straddle_refute_right (M c0 r0 rest : List Char)
    (F1 : ∀ k, k < M.length → 0 < k → ((M.drop k).isPrefixOf r0) = false)
    (F2 : ∀ k, k < M.length → 0 < k → (r0.isPrefixOf (M.drop k)) = false) :
    ∀ k, 0 < k → k < M.length → ¬ (M.take k <:+ c0 ∧ M.drop k <+: r0 ++ rest) := by
  intro k hk1 hk2 ⟨_, hpre⟩
  exact no_prefix_of_append hpre (F1 k hk2 hk1) (F2 k hk2 hk1)

/-- The refinement marker does not occur in the base user prompt
(company-name clause only), provided it does not occur in the company
name itself. -/
theorem no_refine_marker_base (c : String)
    (hc : strContains c "Previous financial model: " = false) :
    firstOcc "Previous financial model: ".data
      ("Please create a financial model for ".data ++ (c.data ++
        (apos.data ++ "s loyalty program.".data))) = none := by
  apply firstOcc_append_none
  · decide
  · exact straddle_refute_left _ _ _ (by decide)
  · apply firstOcc_append_none
    · exact (strContains_false_iff c _).mp hc
    · exact straddle_refute_right _ _ _ _ (by decide) (by decide)
    · apply firstOcc_append_none
      · decide
      · exact straddle_refute_left _ _ _ (by decide)
      · decide

/-- The refinement marker does not occur in the base-plus-design user
prompt, provided it occurs neither in the company name nor in the
design text. -/
theorem no_refine_marker_base_design (c dd : String)
    (hc : strContains c "Previous financial model: " = false)
    (hd : strContains dd "Previous financial model: " = false) :
    firstOcc "Previous financial model: ".data
      ("Please create a financial model for ".data ++ (c.data ++
        (apos.data ++ ("s loyalty program.".data ++
          ("\n\nConsider this program design: ".data ++ dd.data))))) = none := by
  apply firstOcc_append_none
  · decide
  · exact straddle_refute_left _ _ _ (by decide)
  · apply firstOcc_append_none
    · exact (strContains_false_iff c _).mp hc
    · exact straddle_refute_right _ _ _ _ (by decide) (by decide)
    · apply firstOcc_append_none
      · decide
      · exact straddle_refute_left _ _ _ (by decide)
      · apply firstOcc_append_none
        · decide
        · exact straddle_refute_left _ _ _ (by decide)
        · apply firstOcc_append_none
          · decide
          · exact straddle_refute_left _ _ _ (by decide)
          · exact (strContains_false_iff dd _).mp hd

/-- C4 (amended): for a company name and program design that do not
themselves contain the refinement marker, the user instruction contains
the refinement clause — embedding the previous output and the feedback
verbatim — if and only if both the existing generated output and the
feedback are truthy, i.e. non-null AND non-empty.  (Python `and` uses
truthiness: a present-but-empty string does not trigger the clause,
which is what falsifies the claim as stated.) -/
theorem C4_refinement_clause_iff_truthy (c : String) (d e f : Option String)
    (hc : strContains c "Previous financial model: " = false)
    (hd : strContains (d.getD "") "Previous financial model: " = false) :
    strContains (construct_user_prompt c d e f)
        (refinement_clause (e.getD "") (f.getD "")) = true ↔
      (pyTruthyStr e = true ∧ pyTruthyStr f = true) := by
  rw [construct_user_prompt_eq]
  cases hef : pyTruthyStr e && pyTruthyStr f with
  | true =>
    have hef' : pyTruthyStr e = true ∧ pyTruthyStr f = true := by
      cases he : pyTruthyStr e <;> cases hf : pyTruthyStr f <;> simp_all
    constructor
    · intro _
      exact hef'
    · intro _
      simp only [if_true]
      exact contains_clause_suffix _ _ _
  | false =>
    have hboth : ¬ (pyTruthyStr e = true ∧ pyTruthyStr f = true) := by
      rintro ⟨he, hf⟩
      rw [he, hf] at hef
      cases hef
    constructor
    · intro hcont
      exfalso
      have hm := marker_of_clause _ _ _ hcont
      simp only [Bool.false_eq_true, if_false] at hm
      cases hdt : pyTruthyStr d with
      | true =>
        rw [hdt] at hm
        simp only [if_true] at hm
        have hfalse : strContains ("Please create a financial model for " ++ c ++ apos ++
            "s loyalty program." ++ "\n\nConsider this program design: " ++ d.getD "")
            "Previous financial model: " = false := by
          rw [strContains_false_iff]
          have hdata : ("Please create a financial model for " ++ c ++ apos ++
              "s loyalty program." ++ "\n\nConsider this program design: " ++
              d.getD "").data =
              "Please create a financial model for ".data ++ (c.data ++ (apos.data ++
                ("s loyalty program.".data ++ ("\n\nConsider this program design: ".data ++
                  (d.getD "").data)))) := by
            simp [String.data_append, List.append_assoc]
          rw [hdata]
          exact no_refine_marker_base_design c (d.getD "") hc hd
        rw [hfalse] at hm
        cases hm
      | false =>
        rw [hdt] at hm
        simp only [Bool.false_eq_true, if_false] at hm
        have hfalse : strContains ("Please create a financial model for " ++ c ++ apos ++
            "s loyalty program.") "Previous financial model: " = false := by
          rw [strContains_false_iff]
          have hdata : ("Please create a financial model for " ++ c ++ apos ++
              "s loyalty program.").data =
              "Please create a financial model for ".data ++ (c.data ++ (apos.data ++
                "s loyalty program.".data)) := by
            simp [String.data_append, List.append_assoc]
          rw [hdata]
          exact no_refine_marker_base c hc
        rw [hfalse] at hm
        cases hm
    · intro h
      exact absurd h hboth

/-- C4 counterexample: with `existing_generated_output` set to the empty
string (non-null!) and a non-empty feedback, the builder appends no
refinement clause at all — neither the full clause nor even the marker
text occurs in the instruction — refuting the claim that non-null
suffices. -/
theorem C4_counterexample :
    (some "" : Option String).isSome = true ∧
      (some "improve the numbers" : Option String).isSome = true ∧
      strContains (construct_user_prompt "Acme" none (some "") (some "improve the numbers"))
        (refinement_clause "" "improve the numbers") = false ∧
      strContains (construct_user_prompt "Acme" none (some "") (some "improve the numbers"))
        "Previous financial model: " = false :=
  ⟨rfl, rfl, rfl, rfl⟩

/-- Witness for C4 at a concrete refining request. -/
theorem C4_refinement_clause_iff_truthy_witness :
    (strContains "Acme" "Previous financial model: " = false ∧
      strContains ((none : Option String).getD "") "Previous financial model: " = false) ∧
    (strContains (construct_user_prompt "Acme" none (some "old model") (some "lower the costs"))
        (refinement_clause ((some "old model").getD "") ((some "lower the costs").getD "")) = true ↔
      (pyTruthyStr (some "old model") = true ∧ pyTruthyStr (some "lower the costs") = true)) :=
  ⟨⟨rfl, rfl⟩, C4_refinement_clause_iff_truthy "Acme" none (some "old model")
    (some "lower the costs") rfl rfl⟩

/-- The design-clause marker does not occur in the base user prompt
(company-name clause only), provided it does not occur in the company
name itself. -/
theorem no_design_marker_base (c : String)
    (hc : strContains c "Consider this program design: " = false) :
    firstOcc "Consider this program design: ".data
      ("Please create a financial model for ".data ++ (c.data ++
        (apos.data ++ "s loyalty program.".data))) = none := by
  apply firstOcc_append_none
  · decide
  · exact straddle_refute_left _ _ _ (by decide)
  · apply firstOcc_append_none
    · exact (strContains_false_iff c _).mp hc
    · exact straddle_refute_right _ _ _ _ (by decide) (by decide)
    · apply firstOcc_append_none
      · decide
      · exact straddle_refute_left _ _ _ (by decide)
      · decide

/-- C6 (amended): for a request that supplies only `company_name`, the
user instruction contains the company name; and provided the company
name does not itself contain the clause-marker texts, the instruction
contains neither the "Consider this program design" clause nor the
"Previous financial model" refinement clause. -/
theorem C6_company_only_prompt (c : String) (o : Option (List (String × Json)))
    (hc1 : strContains c "Consider this program design: " = false)
    (hc2 : strContains c "Previous financial model: " = false) :
    strContains (request_user_prompt ⟨c, none, none, o⟩) c = true ∧
      strContains (request_user_prompt ⟨c, none, none, o⟩)
        "Consider this program design: " = false ∧
      strContains (request_user_prompt ⟨c, none, none, o⟩)
        "Previous financial model: " = false := by
  have hq : request_user_prompt ⟨c, none, none, o⟩ =
      "Please create a financial model for " ++ c ++ apos ++ "s loyalty program." := rfl
  rw [hq]
  have hdata : ("Please create a financial model for " ++ c ++ apos ++
      "s loyalty program.").data =
      "Please create a financial model for ".data ++ (c.data ++ (apos.data ++
        "s loyalty program.".data)) := by
    simp [String.data_append, List.append_assoc]
  refine ⟨?_, ?_, ?_⟩
  · apply strContains_append_left
    apply strContains_append_left
    apply strContains_append_right
    exact strContains_self c
  · rw [strContains_false_iff, hdata]
    exact no_design_marker_base c hc1
  · rw [strContains_false_iff, hdata]
    exact no_refine_marker_base c hc2

/-- C6 counterexample: a company name that itself contains the
design-clause text makes the instruction contain that clause even
though the request supplies only `company_name`. -/
theorem C6_counterexample :
    strContains (request_user_prompt
        ⟨"Consider this program design: X", none, none, none⟩)
      "Consider this program design: " = true :=
  rfl

/-- Witness for C6 at a benign company name. -/
theorem C6_company_only_prompt_witness :
    (strContains "Acme Corp" "Consider this program design: " = false ∧
      strContains "Acme Corp" "Previous financial model: " = false) ∧
    (strContains (request_user_prompt ⟨"Acme Corp", none, none, none⟩) "Acme Corp" = true ∧
      strContains (request_user_prompt ⟨"Acme Corp", none, none, none⟩)
        "Consider this program design: " = false ∧
      strContains (request_user_prompt ⟨"Acme Corp", none, none, none⟩)
        "Previous financial model: " = false) :=
  ⟨⟨rfl, rfl⟩, C6_company_only_prompt "Acme Corp" none rfl rfl⟩

theorem straddle_refute_drop_part (M a b : List Char)
    (F : ∀ k, k < M.length → 0 < k → ((M.drop k).isPrefixOf b) = false) :
    ∀ k, 0 < k → k < M.length → ¬ (M.take k <:+ a ∧ M.drop k <+: b) := by
  intro k hk1 hk2 ⟨_, hpre⟩
  have h1 := F k hk2 hk1
  have h2 := List.isPrefixOf_iff_prefix.mpr hpre
  rw [h1] at h2
  exact Bool.noConfusion h2

theorem clampIdx_nat (len : Nat) (x : Nat) (hx : x ≤ len) :
    clampIdx len (x : Int) = x := by
  simp only [clampIdx]
  have h1 : ¬ ((x : Int) < 0) := by omega
  rw [if_neg h1, if_neg h1]
  have h2 : ((x : Int)).toNat = x := by omega
  rw [h2]
  exact min_eq_left hx

theorem pySlice_nat (s : String) (a b : Nat)
    (ha : a ≤ s.data.length) (hb : b ≤ s.data.length) :
    pySlice s (a : Int) (b : Int) = ⟨(s.data.take b).drop a⟩ := by
  unfold pySlice pySliceList
  rw [clampIdx_nat _ _ ha, clampIdx_nat _ _ hb]

theorem pySlice_zero_nat (s : String) (b : Nat) (hb : b ≤ s.data.length) :
    pySlice s 0 (b : Int) = ⟨s.data.take b⟩ := by
  have h := pySlice_nat s 0 b (by omega) hb
  rw [show ((0 : Nat) : Int) = (0 : Int) from rfl] at h
  rw [h]
  congr 1

/-- C1 (amended): round trip through the sentinel protocol.  For a
completion `A ++ "[JSON_START]" ++ J ++ "[JSON_END]"` where `A`
contains neither sentinel, `J` contains no occurrence of the end
sentinel, and `J` (after the trimming the code performs) parses as
JSON, the parser returns the parsed value and the analysis equals `A`
trimmed. -/
theorem C1_roundtrip (A J : String) (v : Json)
    (hA_S : strContains A "[JSON_START]" = false)
    (hA_E : strContains A "[JSON_END]" = false)
    (hJ_E : strContains J "[JSON_END]" = false)
    (hv : json_loads (pyStrip J) = some v) :
    extract_json_from_text (A ++ "[JSON_START]" ++ J ++ "[JSON_END]") = .ok v ∧
      analysis_of (A ++ "[JSON_START]" ++ J ++ "[JSON_END]") = pyStrip A := by
  have hS_A : firstOcc "[JSON_START]".data A.data = none :=
    (strContains_false_iff A _).mp hA_S
  have hE_A : firstOcc "[JSON_END]".data A.data = none :=
    (strContains_false_iff A _).mp hA_E
  have hE_J : firstOcc "[JSON_END]".data J.data = none :=
    (strContains_false_iff J _).mp hJ_E
  have hdata : (A ++ "[JSON_START]" ++ J ++ "[JSON_END]").data =
      A.data ++ ("[JSON_START]".data ++ (J.data ++ "[JSON_END]".data)) := by
    simp [String.data_append, List.append_assoc]
  have hlen : (A ++ "[JSON_START]" ++ J ++ "[JSON_END]").data.length =
      A.data.length + 12 + J.data.length + 10 := by
    rw [hdata]
    simp only [List.length_append]
    rw [show ("[JSON_START]".data).length = 12 from rfl,
      show ("[JSON_END]".data).length = 10 from rfl]
    omega
  have hoccS : firstOcc "[JSON_START]".data
      (A.data ++ ("[JSON_START]".data ++ (J.data ++ "[JSON_END]".data))) =
      some A.data.length := by
    rw [firstOcc_append _ _ _ hS_A
      (straddle_refute_right _ _ _ _ (by decide) (by decide))]
    rw [(firstOcc_some_iff _ _ 0).mpr
      ⟨by rw [List.drop_zero]; exact List.prefix_append _ _, by omega⟩]
    simp
  have hoccE : firstOcc "[JSON_END]".data
      (A.data ++ ("[JSON_START]".data ++ (J.data ++ "[JSON_END]".data))) =
      some (A.data.length + 12 + J.data.length) := by
    rw [firstOcc_append _ _ _ hE_A
      (straddle_refute_right _ _ _ _ (by decide) (by decide))]
    rw [firstOcc_append _ _ _ (by decide)
      (straddle_refute_left _ _ _ (by decide))]
    rw [firstOcc_append _ _ _ hE_J
      (straddle_refute_drop_part _ _ _ (by decide))]
    rw [show firstOcc "[JSON_END]".data "[JSON_END]".data = some 0 from by decide]
    simp only [Option.map_some']
    congr 1
    rw [show ("[JSON_START]".data).length = 12 from rfl]
    omega
  have hfS : pyFind (A ++ "[JSON_START]" ++ J ++ "[JSON_END]") "[JSON_START]" =
      ((A.data.length : Nat) : Int) := by
    unfold pyFind
    rw [hdata, hoccS]
  have hfE : pyFind (A ++ "[JSON_START]" ++ J ++ "[JSON_END]") "[JSON_END]" =
      ((A.data.length + 12 + J.data.length : Nat) : Int) := by
    unfold pyFind
    rw [hdata, hoccE]
  have hslice : pySlice (A ++ "[JSON_START]" ++ J ++ "[JSON_END]")
      (pyFind (A ++ "[JSON_START]" ++ J ++ "[JSON_END]") "[JSON_START]" + 12)
      (pyFind (A ++ "[JSON_START]" ++ J ++ "[JSON_END]") "[JSON_END]") = J := by
    rw [hfS, hfE]
    rw [show (((A.data.length : Nat) : Int) + 12) =
      ((A.data.length + 12 : Nat) : Int) from by omega]
    rw [pySlice_nat _ _ _ (by omega) (by omega)]
    apply String.ext
    show ((A ++ "[JSON_START]" ++ J ++ "[JSON_END]").data.take
      (A.data.length + 12 + J.data.length)).drop (A.data.length + 12) = J.data
    rw [hdata]
    rw [show A.data.length + 12 + J.data.length =
      A.data.length + (12 + J.data.length) from by omega]
    rw [List.take_append]
    rw [show (12 : Nat) = ("[JSON_START]".data).length from rfl]
    rw [List.take_append]
    rw [List.take_left]
    rw [List.drop_append]
    rw [List.drop_left]
  have hana : analysis_of (A ++ "[JSON_START]" ++ J ++ "[JSON_END]") = pyStrip A := by
    unfold analysis_of
    rw [hfS]
    rw [pySlice_zero_nat _ _ (by omega)]
    congr 1
    apply String.ext
    show (A ++ "[JSON_START]" ++ J ++ "[JSON_END]").data.take A.data.length = A.data
    rw [hdata]
    exact List.take_left _ _
  refine ⟨?_, hana⟩
  apply extract_json_from_text_of_loads_some
  rw [hslice]
  exact hv

/-- C1 counterexample: `J = {"a": "[JSON_END]"}` is a valid JSON object
(the sentinel occurs inside a JSON string), `A = ""` contains neither
sentinel, yet the parser fails: the end-sentinel search is not anchored
past the JSON segment, finds the occurrence inside `J`, and the slice
`{"a": "` does not parse. -/
theorem C1_counterexample :
    strContains "" "[JSON_START]" = false ∧
      strContains "" "[JSON_END]" = false ∧
      json_loads "\x7b\"a\": \"[JSON_END]\"\x7d" =
        some (Json.obj [("a", Json.str "[JSON_END]")]) ∧
      extract_json_from_text
          ("" ++ "[JSON_START]" ++ "\x7b\"a\": \"[JSON_END]\"\x7d" ++ "[JSON_END]") =
        .error ⟨500, "Failed to parse structured data from response: \x7b\"a\": \""⟩ :=
  ⟨rfl, rfl, rfl, rfl⟩

/-- Witness for C1 at the spec's synthetic completion
`"<analysis>[JSON_START]{"a":1}[JSON_END]"`. -/
theorem C1_roundtrip_witness :
    (strContains "<analysis>" "[JSON_START]" = false ∧
      strContains "<analysis>" "[JSON_END]" = false ∧
      strContains "\x7b\"a\":1\x7d" "[JSON_END]" = false ∧
      json_loads (pyStrip "\x7b\"a\":1\x7d") = some (Json.obj [("a", Json.num "1")])) ∧
    (extract_json_from_text
        ("<analysis>" ++ "[JSON_START]" ++ "\x7b\"a\":1\x7d" ++ "[JSON_END]") =
        .ok (Json.obj [("a", Json.num "1")]) ∧
      analysis_of ("<analysis>" ++ "[JSON_START]" ++ "\x7b\"a\":1\x7d" ++ "[JSON_END]") =
        pyStrip "<analysis>") :=
  ⟨⟨rfl, rfl, rfl, rfl⟩,
    C1_roundtrip "<analysis>" "\x7b\"a\":1\x7d" (Json.obj [("a", Json.num "1")])
      rfl rfl rfl rfl⟩
